import Mathlib

/-!
# tomdotorg/uptime — a verification development

A shallow embedding of the uptime poller (`cmd/uptime/main.go`, `upcheck/upcheck.go`,
`upcheck/network.go`) and theorems about its liveness state machine, its descriptor
parsing, its target loader and its network helpers.

Conventions of the embedding
* Go `string`s are `List Char` where the code inspects them, `String` where it only
  stores or compares them.
* Go `int` is the 64-bit two's-complement integer: an `Int` kept in range by `wrapInt`.
* Pointers to targets are embedded by value (the loader allocates one record per line,
  so no two entries of the slice alias).
* The network, the clock and the resolver are inputs: a dial result, the instant read by
  `time.Now()`, and an `Env` giving the answers of `net.ParseIP` and `net.LookupIP`.
-/

namespace Uptime

/-! ## Machine integers -/

/-- Largest value of a Go `int` on a 64-bit platform. -/
def maxInt : Int := 2 ^ 63 - 1

/-- Smallest value of a Go `int` on a 64-bit platform. -/
def minInt : Int := -(2 ^ 63)

/-- Two's-complement wrap-around of a mathematical integer into the range of `int`. -/
def wrapInt (x : Int) : Int := (x + 2 ^ 63) % 2 ^ 64 - 2 ^ 63

/-! ## Errors and the probe (`isMemoryError`, `isHostListening`) -/

/-- Go `strings.Contains` on the characters of two strings. -/
def Contains (s sub : List Char) : Bool :=
  s.tails.any (fun t => sub.isPrefixOf t)

/-- The fields of a `*net.OpError` that the code reads: `Op` and the text of `Err`. -/
structure OpError where
  Op : String
  Err : String
deriving DecidableEq, Repr

/-- An `error` value: its `Error()` text and what `errors.As(err, &opErr)` finds in its
chain (`none` when there is no `*net.OpError`). -/
structure GoError where
  text : String
  opErr : Option OpError
deriving DecidableEq, Repr

/-- Result of `net.DialTimeout`: a connection, or an error and no connection. -/
inductive DialResult where
  | connected
  | failed (err : GoError)
deriving DecidableEq, Repr

/-- Go `isMemoryError`: a dial-operation error whose inner text mentions
"cannot allocate memory". -/
def isMemoryError (err : GoError) : Bool :=
  match err.opErr with
  | some o => o.Op == "dial" && Contains o.Err.toList "cannot allocate memory".toList
  | none => false

/-- Go `isHostListening`, as a function of the dial result. A memory error is reported as
`(true, err)`, every other error as `(false, err)`, a connection as `(true, nil)`.
(Closing the connection does not influence the returned pair.) -/
def isHostListening (d : DialResult) : Bool × Option GoError :=
  match d with
  | .failed err => if isMemoryError err then (true, some err) else (false, some err)
  | .connected => (true, none)

/-! ## Targets and the probe cycle (`checkAllTargets`) -/

/-- An instant as returned by `time.Now()`. -/
abbrev Time := Int

/-- Go `upcheck.Target`. `Errors` is the map from error text to count; an absent key
reads as 0, as in Go. The field `Type` is spelled `Typ`. -/
structure Target where
  Name : String
  Host : String
  Port : Int
  Typ : Int
  IsAlive : Bool
  Since : Time
  Attempts : Int
  Failures : Int
  Errors : String → Int

/-- The two transition log lines of `checkAllTargets` ("is back up", "is down"). -/
inductive Transition where
  | backUp
  | wentDown
deriving DecidableEq, Repr

/-- Body of the loop of `checkAllTargets` for one target: `d` is what the dial returns
and `now` the instant stored into `Since`. Returns the updated target and the transition
logged, if any. -/
def checkTarget (d : DialResult) (now : Time) (target : Target) :
    Target × Option Transition :=
  let t1 := { target with Attempts := wrapInt (target.Attempts + 1) }
  let r := isHostListening d
  let t2 :=
    match r.2 with
    | some err =>
      { t1 with
        Errors := fun k => if k = err.text then wrapInt (t1.Errors k + 1) else t1.Errors k }
    | none => t1
  if r.1 then
    if !t2.IsAlive then
      ({ t2 with IsAlive := true, Since := now }, some Transition.backUp)
    else
      ({ t2 with IsAlive := true }, none)
  else
    let t3 := { t2 with Failures := wrapInt (t2.Failures + 1) }
    if t3.IsAlive then
      ({ t3 with IsAlive := false, Since := now }, some Transition.wentDown)
    else
      ({ t3 with IsAlive := false }, none)

/-- One probe cycle from position `i` on: `probe j` is the dial result and the clock
reading for the target at position `j` of the slice. -/
def checkAllTargetsFrom (probe : Nat → DialResult × Time) :
    Nat → List Target → List (Target × Option Transition)
  | _, [] => []
  | i, t :: ts =>
    checkTarget (probe i).1 (probe i).2 t :: checkAllTargetsFrom probe (i + 1) ts

/-- Go `checkAllTargets`: visits the targets in slice order, one probe each. The result
pairs every updated target with the transition logged for it. -/
def checkAllTargets (probe : Nat → DialResult × Time) (targets : List Target) :
    List (Target × Option Transition) :=
  checkAllTargetsFrom probe 0 targets

/-- The loop of `main`: one `checkAllTargets` per element of `cycles`, each on the
targets left by the previous one. Returns the targets after the last cycle. -/
def runCycles : List (Nat → DialResult × Time) → List Target → List Target
  | [], targets => targets
  | probe :: rest, targets => runCycles rest ((checkAllTargets probe targets).map Prod.fst)

/-- The transitions logged by each cycle of `runCycles`, cycle by cycle. -/
def runCyclesLog : List (Nat → DialResult × Time) → List Target →
    List (List (Option Transition))
  | [], _ => []
  | probe :: rest, targets =>
    (checkAllTargets probe targets).map Prod.snd ::
      runCyclesLog rest ((checkAllTargets probe targets).map Prod.fst)

/-- Whether a dial result counts as reachable for the state machine. -/
def reachable (d : DialResult) : Bool := (isHostListening d).1

/-! ## Strings (`strings`, `strconv`) -/

/-- Pieces of `s` between the characters satisfying `p`; never the empty list. -/
def splitP (p : Char → Bool) : List Char → List (List Char)
  | [] => [[]]
  | c :: cs =>
    if p c then [] :: splitP p cs
    else
      match splitP p cs with
      | [] => [[c]]
      | piece :: pieces => (c :: piece) :: pieces

/-- Go `strings.Split(s, sep)` for a separator `sep` of one character. -/
def Split (s : List Char) (sep : Char) : List (List Char) :=
  splitP (fun c => c == sep) s

/-- Go `strings.Join(parts, sep)` for a separator `sep` of one character. -/
def Join : List (List Char) → Char → List Char
  | [], _ => []
  | [a], _ => a
  | a :: b :: rest, sep => a ++ sep :: Join (b :: rest) sep

/-- Go `strings.Index(s, sep)` for a separator of one character: the position of its first
occurrence, or -1. -/
def Index : List Char → Char → Int
  | [], _ => -1
  | c :: cs, sep =>
    if c = sep then 0
    else if Index cs sep = -1 then -1 else Index cs sep + 1

/-- Go `strings.HasPrefix`. -/
def HasPrefix (s pre : List Char) : Bool := pre.isPrefixOf s

/-- Go `unicode.IsSpace`. -/
def isSpace (c : Char) : Bool :=
  c = '\t' || c = '\n' || c.toNat = 0x0B || c.toNat = 0x0C || c = '\r' || c = ' ' ||
  c.toNat = 0x85 || c.toNat = 0xA0 || c.toNat = 0x1680 ||
  (0x2000 ≤ c.toNat && c.toNat ≤ 0x200A) ||
  c.toNat = 0x2028 || c.toNat = 0x2029 || c.toNat = 0x202F || c.toNat = 0x205F ||
  c.toNat = 0x3000

/-- Go `strings.TrimSpace`. -/
def TrimSpace (s : List Char) : List Char :=
  ((s.dropWhile isSpace).reverse.dropWhile isSpace).reverse

/-- Go `strings.Fields`: the maximal runs of non-space characters. -/
def Fields (s : List Char) : List (List Char) :=
  (splitP isSpace s).filter (fun piece => !piece.isEmpty)

/-- The two errors of `strconv.Atoi` (`strconv.ErrSyntax`, `strconv.ErrRange`). -/
inductive NumError where
  | syntaxErr
  | rangeErr
deriving DecidableEq, Repr

/-- Value of a string of decimal digits read after the digits `acc`; `none` when a
character is not a digit. -/
def digitsValue : Nat → List Char → Option Nat
  | acc, [] => some acc
  | acc, c :: cs =>
    if '0' ≤ c ∧ c ≤ '9' then digitsValue (acc * 10 + (c.toNat - '0'.toNat)) cs else none

/-- Go `strconv.Atoi` with a 64-bit `int`: an optional sign and at least one decimal
digit; a value outside the `int` range gives the nearest bound and a range error, any
other text gives 0 and a syntax error. -/
def Atoi (s : List Char) : Int × Option NumError :=
  let neg : Bool := match s with
    | '-' :: _ => true
    | _ => false
  let body : List Char := match s with
    | '-' :: r => r
    | '+' :: r => r
    | _ => s
  if body.isEmpty then (0, some NumError.syntaxErr)
  else
    match digitsValue 0 body with
    | none => (0, some NumError.syntaxErr)
    | some n =>
      if neg then
        if n > 2 ^ 63 then (-(2 ^ 63), some NumError.rangeErr) else (-(n : Int), none)
      else
        if n ≥ 2 ^ 63 then (2 ^ 63 - 1, some NumError.rangeErr) else ((n : Int), none)

/-! ## The endpoint resolver (`parseHostPortType`) and the loader (`getTargetsFromFile`) -/

/-- What the resolver answers: `parseIP host` is `net.ParseIP(host) != nil`, and
`lookupIP host` is the error returned by `net.LookupIP(host)` (`none` for `nil`). -/
structure Env where
  parseIP : List Char → Bool
  lookupIP : List Char → Option GoError

/-- The `error` returned by `parseHostPortType`: the one of `net.LookupIP` or the one of
`strconv.Atoi`. -/
inductive LineError where
  | lookup (err : GoError)
  | atoi (err : NumError)
deriving DecidableEq, Repr

/-- Go `parseHostPortType`: returns `(host, port, err)`, `err = none` standing for `nil`. -/
def parseHostPortType (env : Env) (line : List Char) : List Char × Int × Option LineError :=
  let defaultPort : Int := 80
  let commaIndex := Index line ','
  let line := if commaIndex ≠ -1 then line.take commaIndex.toNat else line
  let parts := Split line ':'
  let host := parts.headD []
  let lookupErr : Option GoError := if env.parseIP host then none else env.lookupIP host
  match lookupErr with
  | some err => (host, -1, some (LineError.lookup err))
  | none =>
    if parts.length > 1 then
      let r := Atoi (parts.getD 1 [])
      if r.2.isSome || r.1 ≤ 0 || r.1 > 65535 then
        (host, -1, r.2.map LineError.atoi)
      else
        (host, r.1, none)
    else
      (host, defaultPort, none)

/-- The loop of `getTargetsFromFile` from line number `i` on. -/
def getTargetsFromLines (env : Env) (clock : Nat → Time) : Nat → List (List Char) → List Target
  | _, [] => []
  | i, line :: rest =>
    if !HasPrefix line ['#'] then
      let r := parseHostPortType env line
      if r.2.2.isSome then
        getTargetsFromLines env clock (i + 1) rest
      else
        { Name := String.mk line, Host := String.mk r.1, Port := r.2.1, Typ := 0,
          Attempts := 1, Failures := 0, IsAlive := true, Since := clock i,
          Errors := fun _ => 0 } :: getTargetsFromLines env clock (i + 1) rest
    else
      getTargetsFromLines env clock (i + 1) rest

/-- Go `getTargetsFromFile`, as a function of the lines that the `bufio.Scanner` yields
for the opened file; `clock i` is the `time.Now()` read while line `i` is handled. (A file
that cannot be opened or read ends the process.) -/
def getTargetsFromFile (env : Env) (clock : Nat → Time) (lines : List (List Char)) :
    List Target :=
  getTargetsFromLines env clock 0 lines

/-- Go `defaultTargets`, both entries stamped with the instant `now`. -/
def defaultTargets (now : Time) : List Target :=
  [ { Name := "Google DNS", Host := "8.8.8.8", Port := 53, Typ := 0, IsAlive := false,
      Since := now, Attempts := 0, Failures := 0, Errors := fun _ => 0 },
    { Name := "Cloudflare DNS", Host := "1.1.1.1", Port := 53, Typ := 0, IsAlive := false,
      Since := now, Attempts := 0, Failures := 0, Errors := fun _ => 0 } ]

/-! ## The status line (`Target.String`) -/

/-- A `float32` value: NaN, an infinity with its sign, or a finite number given by its
exact value (the two zeros are not told apart). -/
inductive F32 where
  | nan
  | inf (negative : Bool)
  | fin (q : ℚ)
deriving DecidableEq

/-- Position of the highest set bit of `n` (0 for `n ≤ 1`), by halving at most `fuel`
times. -/
def log2Fuel : Nat → Nat → Nat
  | 0, _ => 0
  | fuel + 1, n => if 2 ≤ n then log2Fuel fuel (n / 2) + 1 else 0

/-- The exponent `e` with `2^e ≤ m < 2^(e+1)` for a positive rational `m`. -/
def floorLog2 (m : ℚ) : Int :=
  let e0 : Int := (log2Fuel m.num.natAbs m.num.natAbs : Int) - (log2Fuel m.den m.den : Int)
  if (2 : ℚ) ^ e0 ≤ m then e0 else e0 - 1

/-- Nearest integer to `k`, ties to the even one. -/
def roundHalfEven (k : ℚ) : Int :=
  let f := k.floor
  if k - f < 1 / 2 then f
  else if 1 / 2 < k - f then f + 1
  else if f % 2 = 0 then f else f + 1

/-- IEEE 754 binary32 rounding (to nearest, ties to even) of an exact value: 24 significant
bits, exponents from -126 up, infinity from 2^128 on. -/
def F32.ofRat (q : ℚ) : F32 :=
  if q = 0 then F32.fin 0
  else
    let e : Int := max (floorLog2 |q|) (-126)
    let ulp : ℚ := (2 : ℚ) ^ (e - 23)
    let r : ℚ := (roundHalfEven (|q| / ulp) : ℚ) * ulp
    if (2 : ℚ) ^ (128 : Int) ≤ r then F32.inf (decide (q < 0))
    else F32.fin (if q < 0 then -r else r)

/-- The conversion `float32(n)` of an `int`. -/
def F32.ofInt (n : Int) : F32 := F32.ofRat n

/-- The `float32` division `x / y`; a zero divisor is the zero of an integer conversion,
which is positive. -/
def F32.div : F32 → F32 → F32
  | F32.nan, _ => F32.nan
  | _, F32.nan => F32.nan
  | F32.inf _, F32.inf _ => F32.nan
  | F32.inf s, F32.fin y => F32.inf (xor s (decide (y < 0)))
  | F32.fin _, F32.inf _ => F32.fin 0
  | F32.fin x, F32.fin y =>
    if y = 0 then (if x = 0 then F32.nan else F32.inf (decide (x < 0)))
    else F32.ofRat (x / y)

/-- The `float32` multiplication `x * y`. -/
def F32.mul : F32 → F32 → F32
  | F32.nan, _ => F32.nan
  | _, F32.nan => F32.nan
  | F32.inf s, F32.inf s' => F32.inf (xor s s')
  | F32.inf s, F32.fin y => if y = 0 then F32.nan else F32.inf (xor s (decide (y < 0)))
  | F32.fin x, F32.inf s => if x = 0 then F32.nan else F32.inf (xor s (decide (x < 0)))
  | F32.fin x, F32.fin y => F32.ofRat (x * y)

/-- The success rate that `Target.String` formats with `%3.02f`:
`float32(t.Attempts-t.Failures)/float32(t.Attempts)*100.0`. -/
def successRate (t : Target) : F32 :=
  F32.mul
    (F32.div (F32.ofInt (wrapInt (t.Attempts - t.Failures))) (F32.ofInt t.Attempts))
    (F32.ofRat 100)

/-! ## Network helpers (`upcheck/network.go`) -/

/-- Go `net.IP` and `net.IPMask`: a slice of bytes; the `nil` slice is `[]`. -/
abbrev IP := List Nat

/-- Go `net.v4InV6Prefix`. -/
def v4InV6Prefix : IP := [0, 0, 0, 0, 0, 0, 0, 0, 0, 0, 0xff, 0xff]

/-- Go `net.IPv4(a, b, c, d)`: the 16-byte form of an IPv4 address, which is also what
`net.ParseIP` returns for the dotted quad "a.b.c.d". -/
def IPv4 (a b c d : Nat) : IP := v4InV6Prefix ++ [a, b, c, d]

/-- Go `net.allFF`. -/
def allFF (b : List Nat) : Bool := b.all (fun x => x == 0xff)

/-- Go `net.IP.Mask`. -/
def Mask (ip : IP) (mask : IP) : IP :=
  let mask1 : IP :=
    if mask.length == 16 && ip.length == 4 && allFF (mask.take 12) then mask.drop 12 else mask
  let ip1 : IP :=
    if mask1.length == 4 && ip.length == 16 && ip.take 12 == v4InV6Prefix then ip.drop 12
    else ip
  if ip1.length != mask1.length then []
  else List.zipWith (fun x m => x &&& m) ip1 mask1

/-- Go `net.IP.Equal`. -/
def Equal (ip x : IP) : Bool :=
  if ip.length == x.length then ip == x
  else if ip.length == 4 && x.length == 16 then
    x.take 12 == v4InV6Prefix && ip == x.drop 12
  else if ip.length == 16 && x.length == 4 then
    ip.take 12 == v4InV6Prefix && ip.drop 12 == x
  else false

/-- The loop of `net.CIDRMask`: `l` bytes still to fill, `n` one-bits still to place. -/
def cidrBytes : Nat → Nat → List Nat
  | 0, _ => []
  | l + 1, n =>
    if 8 ≤ n then 0xff :: cidrBytes l (n - 8)
    else (0xff - (0xff >>> n)) :: cidrBytes l 0

/-- Go `net.CIDRMask(ones, bits)`. -/
def CIDRMask (ones bits : Int) : IP :=
  if bits ≠ 32 ∧ bits ≠ 128 then []
  else if ones < 0 ∨ ones > bits then []
  else cidrBytes (bits / 8).toNat ones.toNat

/-- Go `IsInSameSubnet`. -/
def IsInSameSubnet (baseIP : IP) (mask : IP) (checkIP : IP) : Bool :=
  Equal (Mask baseIP mask) (Mask checkIP mask)

/-- Go `fmt.Sprintf("%d", b)` for a byte `b`. -/
def formatByte (b : Nat) : List Char := Nat.toDigits 10 b

/-- Go `IPMaskToString`. -/
def IPMaskToString (mask : IP) : List Char :=
  Join (mask.map formatByte) '.'

/-- The conversion `[]byte(s)` of a string: its UTF-8 bytes. -/
def bytesOfString (s : List Char) : List Nat :=
  s.flatMap (fun c => (String.utf8EncodeChar c).map UInt8.toNat)

/-- The loop of `getLinuxGateway` over the lines of the command output; `gw` starts as
the empty `net.IP{}`. -/
def gatewayFromLines : List (List Char) → IP
  | [] => []
  | line :: rest =>
    if HasPrefix (TrimSpace line) "0.0.0.0".toList then
      if 2 ≤ (Fields (TrimSpace line)).length then
        bytesOfString ((Fields (TrimSpace line)).getD 1 [])
      else gatewayFromLines rest
    else gatewayFromLines rest

/-- Go `getLinuxGateway`, as a function of what running `route -n` gives: an error, or the
text written to standard output. Returns `(gw, err)`. -/
def getLinuxGateway (run : Except GoError (List Char)) : IP × Option GoError :=
  match run with
  | Except.error err => ([], some err)
  | Except.ok output => (gatewayFromLines (Split output '\n'), none)

/-- The output of `route -n` quoted in the comment of `getLinuxGateway`. -/
def sampleRouteOutput : List Char :=
  ("Kernel IP routing table\n" ++
   "Destination     Gateway         Genmask         Flags Metric Ref    Use Iface\n" ++
   "0.0.0.0         192.168.0.254   0.0.0.0         UG    0      0        0 enp6s0\n" ++
   "172.17.0.0      0.0.0.0         255.255.0.0     U     0      0        0 docker0\n" ++
   "172.18.0.0      0.0.0.0         255.255.0.0     U     0      0        0 br-0f2b158226c8\n" ++
   "192.168.0.0     0.0.0.0         255.255.255.0   U     0      0        0 enp6s0\n").toList

/-- A line that the loader keeps: not a comment, and parsed without error. -/
def lineAccepted (env : Env) (line : List Char) : Bool :=
  !HasPrefix line ['#'] && (parseHostPortType env line).2.2.isNone

/-- The split of the specification's wording: the text before the last colon, and the
text after it when there is a colon. -/
def splitLastColon : List Char → List Char × Option (List Char)
  | [] => ([], none)
  | c :: cs =>
    match splitLastColon cs with
    | (h, some p) => (c :: h, some p)
    | (h, none) => if c = ':' then ([], some h) else (c :: h, none)

/-- A resolver for which 8.8.8.8 and ::1 are IP literals, `example.com` resolves, and no
other name does. -/
def sampleEnv : Env :=
  { parseIP := fun host => host == "8.8.8.8".toList || host == "::1".toList
    lookupIP := fun host =>
      if host == "example.com".toList then none
      else some { text := "lookup " ++ String.mk host ++ ": no such host", opErr := none } }

/-- The counters of a target that can still take `n` more probes without overflow. -/
def CountersOK (n : Nat) (t : Target) : Prop :=
  minInt ≤ t.Failures ∧ t.Failures ≤ t.Attempts ∧ t.Attempts + n ≤ maxInt

/-- A target whose attempt counter holds the largest `int`. -/
def saturatedTarget : Target :=
  { Name := "8.8.8.8:53", Host := "8.8.8.8", Port := 53, Typ := 0, IsAlive := true,
    Since := 0, Attempts := maxInt, Failures := 0, Errors := fun _ => 0 }

/-- A dial error that is not a memory error: connection refused. -/
def refusedError : GoError :=
  { text := "dial tcp 8.8.8.8:53: connect: connection refused",
    opErr := some { Op := "dial", Err := "connect: connection refused" } }

/-- A dial error that `isMemoryError` recognises. -/
def memoryError : GoError :=
  { text := "dial tcp 8.8.8.8:53: socket: cannot allocate memory",
    opErr := some { Op := "dial", Err := "socket: cannot allocate memory" } }

/-! # Theorems -/

/-! ## The probe cycle -/

theorem wrapInt_eq_self {x : Int} (h1 : minInt ≤ x) (h2 : x ≤ maxInt) : wrapInt x = x := by
  unfold wrapInt
  unfold minInt at h1
  unfold maxInt at h2
  omega

theorem checkTarget_attempts (d : DialResult) (now : Time) (t : Target) :
    (checkTarget d now t).1.Attempts = wrapInt (t.Attempts + 1) := by
  unfold checkTarget
  cases d with
  | connected => cases h : t.IsAlive <;> simp [isHostListening, h]
  | failed err =>
    cases hm : isMemoryError err <;> cases h : t.IsAlive <;> simp [isHostListening, hm, h]

theorem checkTarget_failures (d : DialResult) (now : Time) (t : Target) :
    (checkTarget d now t).1.Failures
      = if reachable d then t.Failures else wrapInt (t.Failures + 1) := by
  unfold checkTarget reachable
  cases d with
  | connected => cases h : t.IsAlive <;> simp [isHostListening, h]
  | failed err =>
    cases hm : isMemoryError err <;> cases h : t.IsAlive <;> simp [isHostListening, hm, h]

theorem checkTarget_isAlive (d : DialResult) (now : Time) (t : Target) :
    (checkTarget d now t).1.IsAlive = reachable d := by
  unfold checkTarget reachable
  cases d with
  | connected => cases h : t.IsAlive <;> simp [isHostListening, h]
  | failed err =>
    cases hm : isMemoryError err <;> cases h : t.IsAlive <;> simp [isHostListening, hm, h]

theorem checkTarget_since (d : DialResult) (now : Time) (t : Target) :
    (checkTarget d now t).1.Since = if reachable d = t.IsAlive then t.Since else now := by
  unfold checkTarget reachable
  cases d with
  | connected => cases h : t.IsAlive <;> simp [isHostListening, h]
  | failed err =>
    cases hm : isMemoryError err <;> cases h : t.IsAlive <;> simp [isHostListening, hm, h]

theorem checkTarget_event (d : DialResult) (now : Time) (t : Target) :
    (checkTarget d now t).2
      = if reachable d = t.IsAlive then none
        else if reachable d then some Transition.backUp else some Transition.wentDown := by
  unfold checkTarget reachable
  cases d with
  | connected => cases h : t.IsAlive <;> simp [isHostListening, h]
  | failed err =>
    cases hm : isMemoryError err <;> cases h : t.IsAlive <;> simp [isHostListening, hm, h]

theorem checkAllTargetsFrom_getElem? (probe : Nat → DialResult × Time) (ts : List Target) :
    ∀ (i j : Nat),
      (checkAllTargetsFrom probe i ts)[j]?
        = (ts[j]?).map (fun t => checkTarget (probe (i + j)).1 (probe (i + j)).2 t) := by
  induction ts with
  | nil => intro i j; simp [checkAllTargetsFrom]
  | cons t ts ih =>
    intro i j
    cases j with
    | zero => simp [checkAllTargetsFrom]
    | succ j =>
      simp only [checkAllTargetsFrom, List.getElem?_cons_succ]
      rw [ih (i + 1) j]
      have : i + 1 + j = i + (j + 1) := by omega
      rw [this]

theorem mem_checkAllTargetsFrom (probe : Nat → DialResult × Time) (ts : List Target) :
    ∀ (i : Nat) (r : Target × Option Transition), r ∈ checkAllTargetsFrom probe i ts →
      ∃ t ∈ ts, ∃ d now, r = checkTarget d now t := by
  induction ts with
  | nil => intro i r h; simp [checkAllTargetsFrom] at h
  | cons t ts ih =>
    intro i r h
    simp only [checkAllTargetsFrom, List.mem_cons] at h
    rcases h with h | h
    · exact ⟨t, List.mem_cons_self _ _, _, _, h⟩
    · obtain ⟨t', ht', d, now, hr⟩ := ih (i + 1) r h
      exact ⟨t', List.mem_cons_of_mem _ ht', d, now, hr⟩

theorem checkTarget_countersOK (d : DialResult) (now : Time) (t : Target) (n : Nat)
    (h : CountersOK (n + 1) t) : CountersOK n (checkTarget d now t).1 := by
  obtain ⟨h1, h2, h3⟩ := h
  have hA : wrapInt (t.Attempts + 1) = t.Attempts + 1 := by
    apply wrapInt_eq_self
    · unfold minInt at *; omega
    · push_cast at h3; omega
  have hF : wrapInt (t.Failures + 1) = t.Failures + 1 := by
    apply wrapInt_eq_self
    · unfold minInt at *; omega
    · push_cast at h3; omega
  unfold CountersOK
  rw [checkTarget_attempts, checkTarget_failures, hA, hF]
  push_cast at h3
  split <;> refine ⟨?_, ?_, ?_⟩ <;> omega

theorem runCycles_countersOK (cycles : List (Nat → DialResult × Time)) :
    ∀ (targets : List Target), (∀ t ∈ targets, CountersOK cycles.length t) →
      ∀ (k : Nat), ∀ t' ∈ runCycles (cycles.take k) targets, t'.Failures ≤ t'.Attempts := by
  induction cycles with
  | nil =>
    intro targets h k t' ht'
    simp only [List.take_nil, runCycles] at ht'
    exact (h t' ht').2.1
  | cons probe rest ih =>
    intro targets h k t' ht'
    cases k with
    | zero =>
      simp only [List.take_zero, runCycles] at ht'
      exact (h t' ht').2.1
    | succ k =>
      simp only [List.take_succ_cons, runCycles] at ht'
      refine ih _ ?_ k t' ht'
      intro u hu
      obtain ⟨r, hr, rfl⟩ := List.mem_map.1 hu
      obtain ⟨t, ht, d, now, rfl⟩ := mem_checkAllTargetsFrom probe targets 0 r hr
      exact checkTarget_countersOK d now t rest.length (h t ht)

theorem wrapInt_wrapInt_add (x y : Int) : wrapInt (wrapInt x + y) = wrapInt (x + y) := by
  unfold wrapInt
  omega

theorem runCycles_replicate_connected (now : Time) :
    ∀ (n : Nat) (t : Target), wrapInt t.Attempts = t.Attempts →
      ∃ t', runCycles (List.replicate n (fun _ => (DialResult.connected, now))) [t] = [t'] ∧
        t'.Failures = t.Failures ∧ t'.Attempts = wrapInt (t.Attempts + n) := by
  intro n
  induction n with
  | zero =>
    intro t ht
    exact ⟨t, rfl, rfl, by simpa using ht.symm⟩
  | succ n ih =>
    intro t ht
    have hstep : runCycles (List.replicate (n + 1) (fun _ => (DialResult.connected, now))) [t]
        = runCycles (List.replicate n (fun _ => (DialResult.connected, now)))
            [(checkTarget DialResult.connected now t).1] := rfl
    have hA := checkTarget_attempts DialResult.connected now t
    have hF := checkTarget_failures DialResult.connected now t
    have hidem : wrapInt (checkTarget DialResult.connected now t).1.Attempts
        = (checkTarget DialResult.connected now t).1.Attempts := by
      rw [hA]
      have := wrapInt_wrapInt_add (t.Attempts + 1) 0
      simpa using this
    obtain ⟨t', h1, h2, h3⟩ := ih _ hidem
    refine ⟨t', hstep.trans h1, ?_, ?_⟩
    · rw [h2, hF]
      simp [reachable, isHostListening]
    · rw [h3, hA, wrapInt_wrapInt_add]
      push_cast
      congr 1
      omega

/-- C1 (amended): for targets whose counters are Go ints with `Failures ≤ Attempts`, and a
sequence of probe cycles short enough that `Attempts` cannot pass the largest `int`
(`Attempts + number of cycles ≤ 2^63 - 1`), `Failures ≤ Attempts` holds for every target
after every probe cycle, whatever the probes return. -/
theorem failures_le_attempts_without_overflow
    (cycles : List (Nat → DialResult × Time)) (targets : List Target)
    (h : ∀ t ∈ targets,
      minInt ≤ t.Failures ∧ t.Failures ≤ t.Attempts ∧ t.Attempts + cycles.length ≤ maxInt) :
    ∀ (k : Nat), ∀ t' ∈ runCycles (cycles.take k) targets, t'.Failures ≤ t'.Attempts :=
  runCycles_countersOK cycles targets h

/-- Witness of C1 (amended): the invariant at a freshly loaded target over two cycles, one
refused and one connected. -/
theorem failures_le_attempts_without_overflow_witness :
    (∀ t ∈ [{ saturatedTarget with Attempts := 1 }],
      minInt ≤ t.Failures ∧ t.Failures ≤ t.Attempts ∧
        t.Attempts + [fun (_ : Nat) => (DialResult.failed refusedError, (5 : Time)),
          fun (_ : Nat) => (DialResult.connected, (6 : Time))].length ≤ maxInt) ∧
    ∀ (k : Nat), ∀ t' ∈ runCycles
        ([fun (_ : Nat) => (DialResult.failed refusedError, (5 : Time)),
          fun (_ : Nat) => (DialResult.connected, (6 : Time))].take k)
        [{ saturatedTarget with Attempts := 1 }], t'.Failures ≤ t'.Attempts :=
  have hyp : ∀ t ∈ [{ saturatedTarget with Attempts := 1 }],
      minInt ≤ t.Failures ∧ t.Failures ≤ t.Attempts ∧
        t.Attempts + [fun (_ : Nat) => (DialResult.failed refusedError, (5 : Time)),
          fun (_ : Nat) => (DialResult.connected, (6 : Time))].length ≤ maxInt := by
    intro t ht
    rw [List.mem_singleton] at ht
    subst ht
    simp [saturatedTarget, minInt, maxInt]
  ⟨hyp, failures_le_attempts_without_overflow _ _ hyp⟩

/-- C1 as stated fails: a target with `Failures = 0 ≤ Attempts = 2^63 - 1` is probed once
and connects; `Attempts++` wraps to `-2^63`, so `Failures ≤ Attempts` no longer holds. The
same happens to the target that the loader creates for "8.8.8.8:53" (`Attempts = 1`,
`Failures = 0`) after `2^63 - 1` probe cycles that all connect. -/
theorem failures_le_attempts_counterexample :
    saturatedTarget.Failures ≤ saturatedTarget.Attempts ∧
    (runCycles [fun _ => (DialResult.connected, 1)] [saturatedTarget]).map
        (fun t => (t.Failures, t.Attempts)) = [(0, -(2 ^ 63))] ∧
    ¬ (∀ t' ∈ runCycles [fun _ => (DialResult.connected, 1)] [saturatedTarget],
        t'.Failures ≤ t'.Attempts) ∧
    ¬ (∀ t' ∈ runCycles (List.replicate (2 ^ 63 - 1) (fun _ => (DialResult.connected, 1)))
          (getTargetsFromFile sampleEnv (fun i => i) ["8.8.8.8:53".toList]),
        t'.Failures ≤ t'.Attempts) := by
  refine ⟨by decide, by decide, ?_, ?_⟩
  · intro h
    have := h _ (List.mem_singleton.2 rfl)
    revert this
    decide
  · intro h
    have hload : getTargetsFromFile sampleEnv (fun i => i) ["8.8.8.8:53".toList]
        = [{ Name := "8.8.8.8:53", Host := "8.8.8.8", Port := 53, Typ := 0, Attempts := 1,
             Failures := 0, IsAlive := true, Since := 0, Errors := fun _ => 0 }] := by
      rfl
    rw [hload] at h
    obtain ⟨t', h1, h2, h3⟩ := runCycles_replicate_connected 1 (2 ^ 63 - 1)
      { Name := "8.8.8.8:53", Host := "8.8.8.8", Port := 53, Typ := 0, Attempts := 1,
        Failures := 0, IsAlive := true, Since := 0, Errors := fun _ => 0 } (by decide)
    rw [h1] at h
    have h4 := h t' (List.mem_singleton.2 rfl)
    rw [h2, h3] at h4
    revert h4
    decide

/-- C2: one application of the per-target transition stores the probe time into `Since`
when `IsAlive` after the probe differs from `IsAlive` before it, and leaves `Since` as it
was when `IsAlive` keeps its value; so, the probe time being another instant than the
stored one, `Since` changes if and only if `IsAlive` changes. -/
theorem since_changes_iff_isAlive_changes (d : DialResult) (now : Time) (t : Target) :
    ((checkTarget d now t).1.IsAlive ≠ t.IsAlive → (checkTarget d now t).1.Since = now) ∧
    ((checkTarget d now t).1.IsAlive = t.IsAlive → (checkTarget d now t).1.Since = t.Since) ∧
    (t.Since ≠ now →
      ((checkTarget d now t).1.Since ≠ t.Since ↔ (checkTarget d now t).1.IsAlive ≠ t.IsAlive)) := by
  rw [checkTarget_since, checkTarget_isAlive]
  by_cases h : reachable d = t.IsAlive
  · simp [h]
  · simp only [h, if_false, ne_eq, not_false_eq_true, true_implies, false_implies, true_and,
      iff_true]
    intro hne heq
    exact hne heq.symm

/-- Witness of C2: an alive target stamped at instant 0 is refused at instant 7. -/
theorem since_changes_iff_isAlive_changes_witness :
    (checkTarget (DialResult.failed refusedError) 7 saturatedTarget).1.IsAlive
        ≠ saturatedTarget.IsAlive ∧
    saturatedTarget.Since ≠ 7 ∧
    (checkTarget (DialResult.failed refusedError) 7 saturatedTarget).1.Since = 7 ∧
    (checkTarget (DialResult.failed refusedError) 7 saturatedTarget).1.Since
        ≠ saturatedTarget.Since :=
  have hflip : (checkTarget (DialResult.failed refusedError) 7 saturatedTarget).1.IsAlive
      ≠ saturatedTarget.IsAlive := by decide
  have hnow : saturatedTarget.Since ≠ 7 := by decide
  ⟨hflip, hnow,
    (since_changes_iff_isAlive_changes _ 7 saturatedTarget).1 hflip,
    ((since_changes_iff_isAlive_changes _ 7 saturatedTarget).2.2 hnow).2 hflip⟩

/-- C3: an alive target probed with connected, connected, error, error, connected (the
errors not being memory errors) logs no transition, no transition, "is down", no
transition, "is back up", in that order. In general the tick of `checkAllTargets` for the
target at position `i` logs "is down" exactly when the target was alive and the probe is
not reachable, "is back up" exactly when it was dead and the probe is reachable, and
nothing exactly when liveness and reachability agree; afterwards `IsAlive` is the
reachability of that probe. A connection is reachable, and an error is reachable exactly
when it is a memory error. -/
theorem transition_events (t : Target) (e1 e2 : GoError) (n1 n2 n3 n4 n5 : Time)
    (probe : Nat → DialResult × Time) (ts : List Target) (i : Nat) (u : Target) :
    (isMemoryError e1 = false → isMemoryError e2 = false →
      runCyclesLog
        [fun _ => (DialResult.connected, n1), fun _ => (DialResult.connected, n2),
         fun _ => (DialResult.failed e1, n3), fun _ => (DialResult.failed e2, n4),
         fun _ => (DialResult.connected, n5)]
        [{ t with IsAlive := true }]
      = [[none], [none], [some Transition.wentDown], [none], [some Transition.backUp]]) ∧
    (ts[i]? = some u →
      ∃ r, (checkAllTargets probe ts)[i]? = some r ∧
        (r.2 = some Transition.wentDown ↔ (u.IsAlive = true ∧ reachable (probe i).1 = false)) ∧
        (r.2 = some Transition.backUp ↔ (u.IsAlive = false ∧ reachable (probe i).1 = true)) ∧
        (r.2 = none ↔ u.IsAlive = reachable (probe i).1) ∧
        r.1.IsAlive = reachable (probe i).1) ∧
    reachable DialResult.connected = true ∧
    (∀ e, reachable (DialResult.failed e) = isMemoryError e) := by
  refine ⟨?_, ?_, by simp [reachable, isHostListening], ?_⟩
  · intro h1 h2
    simp [runCyclesLog, checkAllTargets, checkAllTargetsFrom, checkTarget, isHostListening,
      h1, h2]
  · intro hu
    refine ⟨checkTarget (probe i).1 (probe i).2 u, ?_, ?_⟩
    · unfold checkAllTargets
      rw [checkAllTargetsFrom_getElem?, hu]
      simp
    · rw [checkTarget_event, checkTarget_isAlive]
      cases reachable (probe i).1 <;> cases u.IsAlive <;> simp
  · intro e
    unfold reachable isHostListening
    cases h : isMemoryError e <;> simp [h]

/-- Witness of C3: the second of two targets is alive and its probe is refused. -/
theorem transition_events_witness :
    isMemoryError refusedError = false ∧
    reachable (DialResult.failed memoryError) = true ∧
    ([saturatedTarget, saturatedTarget][1]? = some saturatedTarget) ∧
    (runCyclesLog
        [fun _ => (DialResult.connected, 1), fun _ => (DialResult.connected, 2),
         fun _ => (DialResult.failed refusedError, 3),
         fun _ => (DialResult.failed refusedError, 4),
         fun _ => (DialResult.connected, 5)]
        [{ saturatedTarget with IsAlive := true }]
      = [[none], [none], [some Transition.wentDown], [none], [some Transition.backUp]]) ∧
    ∃ r, (checkAllTargets (fun _ => (DialResult.failed refusedError, 9))
            [saturatedTarget, saturatedTarget])[1]? = some r ∧
        (r.2 = some Transition.wentDown ↔
          (saturatedTarget.IsAlive = true ∧
            reachable (DialResult.failed refusedError) = false)) ∧
        (r.2 = some Transition.backUp ↔
          (saturatedTarget.IsAlive = false ∧
            reachable (DialResult.failed refusedError) = true)) ∧
        (r.2 = none ↔ saturatedTarget.IsAlive = reachable (DialResult.failed refusedError)) ∧
        r.1.IsAlive = reachable (DialResult.failed refusedError) :=
  have hm : isMemoryError refusedError = false := by decide
  have hi : [saturatedTarget, saturatedTarget][1]? = some saturatedTarget := rfl
  ⟨hm, by decide, hi,
    (transition_events saturatedTarget refusedError refusedError 1 2 3 4 5
      (fun _ => (DialResult.failed refusedError, 9)) [saturatedTarget, saturatedTarget] 1
      saturatedTarget).1 hm hm,
    (transition_events saturatedTarget refusedError refusedError 1 2 3 4 5
      (fun _ => (DialResult.failed refusedError, 9)) [saturatedTarget, saturatedTarget] 1
      saturatedTarget).2.1 hi⟩

/-! ## The endpoint resolver and the loader -/

theorem splitP_ne_nil (p : Char → Bool) (s : List Char) : splitP p s ≠ [] := by
  induction s with
  | nil => simp [splitP]
  | cons c cs ih =>
    unfold splitP
    split
    · simp
    · split <;> simp

theorem headD_splitP (p : Char → Bool) (s : List Char) :
    (splitP p s).headD [] = s.takeWhile (fun c => !p c) := by
  induction s with
  | nil => simp [splitP]
  | cons c cs ih =>
    unfold splitP
    by_cases hc : p c = true
    · simp [hc]
    · simp only [hc, if_false, Bool.false_eq_true]
      cases h : splitP p cs with
      | nil => exact absurd h (splitP_ne_nil p cs)
      | cons piece pieces =>
        rw [h] at ih
        simp only [List.headD_cons] at ih
        simp [hc, ih]

theorem getD_one_splitP (p : Char → Bool) (s : List Char) :
    (splitP p s).getD 1 [] = ((s.dropWhile (fun c => !p c)).drop 1).takeWhile (fun c => !p c) := by
  induction s with
  | nil => simp [splitP]
  | cons c cs ih =>
    unfold splitP
    by_cases hc : p c = true
    · have h0 : ([] :: splitP p cs).getD 1 [] = (splitP p cs).headD [] := by
        cases splitP p cs <;> simp
      simp only [hc, if_true, h0, headD_splitP]
      simp [List.dropWhile_cons, hc]
    · simp only [hc, if_false, Bool.false_eq_true]
      cases h : splitP p cs with
      | nil => exact absurd h (splitP_ne_nil p cs)
      | cons piece pieces =>
        rw [h] at ih
        have h1 : ((c :: piece) :: pieces).getD 1 [] = (piece :: pieces).getD 1 [] := by
          cases pieces <;> simp
        rw [h1, ih]
        simp [List.dropWhile_cons, hc]

theorem one_lt_length_splitP (p : Char → Bool) (s : List Char) :
    1 < (splitP p s).length ↔ ∃ c ∈ s, p c = true := by
  induction s with
  | nil => simp [splitP]
  | cons c cs ih =>
    unfold splitP
    by_cases hc : p c = true
    · have := splitP_ne_nil p cs
      have hpos : 0 < (splitP p cs).length := List.length_pos.2 this
      simp only [hc, if_true, List.length_cons, List.mem_cons, exists_eq_or_imp, true_or,
        iff_true]
      omega
    · simp only [hc, if_false, Bool.false_eq_true, List.mem_cons, exists_eq_or_imp, false_or]
      cases h : splitP p cs with
      | nil => exact absurd h (splitP_ne_nil p cs)
      | cons piece pieces =>
        rw [h] at ih
        simpa using ih

theorem Index_ge (s : List Char) (sep : Char) : -1 ≤ Index s sep := by
  induction s with
  | nil => simp [Index]
  | cons c cs ih =>
    unfold Index
    split
    · omega
    · split <;> omega

theorem take_Index (s : List Char) (sep : Char) :
    (if Index s sep ≠ -1 then s.take (Index s sep).toNat else s)
      = s.takeWhile (fun c => c != sep) := by
  induction s with
  | nil => simp [Index]
  | cons c cs ih =>
    have hge := Index_ge cs sep
    unfold Index
    by_cases hc : c = sep
    · simp [hc]
    · by_cases hi : Index cs sep = -1
      · simp only [hi, if_true, hc, if_false, ne_eq, not_true_eq_false]
        simp only [hi, ne_eq, not_true_eq_false, if_false] at ih
        rw [List.takeWhile_cons]
        simp [hc, ← ih]
      · simp only [hi, hc, if_false, ne_eq]
        simp only [hi, ne_eq, not_false_eq_true, if_true] at ih
        have h1 : ¬ (Index cs sep + 1 = -1) := by omega
        have h2 : (Index cs sep + 1).toNat = (Index cs sep).toNat + 1 := by omega
        rw [if_pos h1, h2, List.take_succ_cons, ih, List.takeWhile_cons]
        simp [hc]

theorem parseHostPortType_eq (env : Env) (line : List Char) :
    parseHostPortType env line =
      (let l := line.takeWhile (fun c => c != ',')
       let host := l.takeWhile (fun c => c != ':')
       let portText := ((l.dropWhile (fun c => c != ':')).drop 1).takeWhile (fun c => c != ':')
       match (if env.parseIP host then none else env.lookupIP host) with
       | some err => (host, -1, some (LineError.lookup err))
       | none =>
         if ':' ∈ l then
           if (Atoi portText).2.isSome || (Atoi portText).1 ≤ 0 || (Atoi portText).1 > 65535 then
             (host, -1, (Atoi portText).2.map LineError.atoi)
           else (host, (Atoi portText).1, none)
         else (host, 80, none)) := by
  have hne : (fun c : Char => !(c == ':')) = (fun c => c != ':') := by
    funext c; rfl
  unfold parseHostPortType
  simp only [take_Index, Split, headD_splitP, getD_one_splitP, hne]
  have hlen : (splitP (fun c => c == ':') (line.takeWhile (fun c => c != ','))).length > 1
      ↔ ':' ∈ line.takeWhile (fun c => c != ',') := by
    rw [gt_iff_lt, one_lt_length_splitP]
    constructor
    · rintro ⟨c, hc, hp⟩
      have : c = ':' := by simpa using hp
      exact this ▸ hc
    · intro h
      exact ⟨':', h, by simp⟩
  simp only [hlen]

theorem splitLastColon_of_not_mem (l : List Char) (h : ':' ∉ l) :
    splitLastColon l = (l, none) := by
  induction l with
  | nil => rfl
  | cons c cs ih =>
    have hc : ¬ c = ':' := fun e => h (e ▸ List.mem_cons_self _ _)
    have hcs : ':' ∉ cs := fun e => h (List.mem_cons_of_mem _ e)
    simp [splitLastColon, ih hcs, hc]

theorem takeWhile_ne_of_not_mem (l : List Char) (h : ':' ∉ l) :
    l.takeWhile (fun c => c != ':') = l := by
  rw [List.takeWhile_eq_self_iff]
  intro c hc
  have : c ≠ ':' := fun e => h (e ▸ hc)
  simpa using this

theorem splitLastColon_of_count_le_one (l : List Char) (h : l.count ':' ≤ 1) :
    splitLastColon l =
      (l.takeWhile (fun c => c != ':'),
       if ':' ∈ l then
         some (((l.dropWhile (fun c => c != ':')).drop 1).takeWhile (fun c => c != ':'))
       else none) := by
  induction l with
  | nil => simp [splitLastColon]
  | cons c cs ih =>
    by_cases hc : c = ':'
    · subst hc
      have hcs : ':' ∉ cs := by
        intro hm
        have := List.count_pos_iff.2 hm
        simp only [List.count_cons_self] at h
        omega
      simp [splitLastColon, splitLastColon_of_not_mem cs hcs, takeWhile_ne_of_not_mem cs hcs]
    · have hcount : cs.count ':' ≤ 1 := by
        rw [List.count_cons_of_ne (Ne.symm hc)] at h
        exact h
      have hc' : ¬ ':' = c := fun e => hc e.symm
      by_cases hm : ':' ∈ cs
      · simp [splitLastColon, ih hcount, hm, hc, List.takeWhile_cons, List.dropWhile_cons]
      · simp [splitLastColon, ih hcount, hm, hc, hc', List.takeWhile_cons]

theorem getTargetsFromLines_summary (env : Env) (clock : Nat → Time) (lines : List (List Char)) :
    ∀ (i : Nat),
      (getTargetsFromLines env clock i lines).map
          (fun t => (t.Name, t.Host, t.Port, t.Attempts, t.Failures, t.IsAlive))
        = (lines.filter (lineAccepted env)).map
          (fun line => (String.mk line, String.mk (parseHostPortType env line).1,
            (parseHostPortType env line).2.1, (1 : Int), (0 : Int), true)) := by
  induction lines with
  | nil => intro i; simp [getTargetsFromLines]
  | cons line rest ih =>
    intro i
    unfold getTargetsFromLines
    by_cases hp : HasPrefix line ['#'] = true
    · simp [hp, lineAccepted, ih]
    · cases he : (parseHostPortType env line).2.2 with
      | none => simp [hp, lineAccepted, he, ih]
      | some e => simp [hp, lineAccepted, he, ih]

theorem parseHostPortType_port_out_of_range (env : Env) (line : List Char)
    (hhost : (if env.parseIP ((line.takeWhile (fun c => c != ',')).takeWhile (fun c => c != ':'))
        then none
        else env.lookupIP ((line.takeWhile (fun c => c != ',')).takeWhile (fun c => c != ':')))
      = none)
    (hcolon : ':' ∈ line.takeWhile (fun c => c != ','))
    (hparse : (Atoi ((((line.takeWhile (fun c => c != ',')).dropWhile (fun c => c != ':')).drop 1
      ).takeWhile (fun c => c != ':'))).2 = none)
    (hrange : (Atoi ((((line.takeWhile (fun c => c != ',')).dropWhile (fun c => c != ':')).drop 1
      ).takeWhile (fun c => c != ':'))).1 ≤ 0 ∨
      (Atoi ((((line.takeWhile (fun c => c != ',')).dropWhile (fun c => c != ':')).drop 1
      ).takeWhile (fun c => c != ':'))).1 > 65535) :
    parseHostPortType env line
      = ((line.takeWhile (fun c => c != ',')).takeWhile (fun c => c != ':'), -1, none) := by
  rw [parseHostPortType_eq]
  simp only [hhost, hcolon, if_true, hparse, Option.isSome_none, Bool.false_or, Option.map_none']
  rw [if_pos]
  simpa using hrange

/-- C4 (the code at the failing inputs): for the descriptors "8.8.8.8:70000",
"example.com:70000", "8.8.8.8:0" and "8.8.8.8:-5", whose host is acceptable and whose port
is an integer outside [1, 65535], `parseHostPortType` returns port -1 with a nil error,
and `getTargetsFromFile` therefore loads "example.com:70000" as a target with port -1. -/
theorem out_of_range_port_returns_nil_error :
    parseHostPortType sampleEnv "8.8.8.8:70000".toList = ("8.8.8.8".toList, -1, none) ∧
    parseHostPortType sampleEnv "example.com:70000".toList
      = ("example.com".toList, -1, none) ∧
    parseHostPortType sampleEnv "8.8.8.8:0".toList = ("8.8.8.8".toList, -1, none) ∧
    parseHostPortType sampleEnv "8.8.8.8:-5".toList = ("8.8.8.8".toList, -1, none) ∧
    (getTargetsFromFile sampleEnv (fun i => i) ["example.com:70000".toList]).map
        (fun t => (t.Host, t.Port)) = [("example.com", -1)] := by
  decide

/-- C5 (amended): loading a file made, in any order, of one line that the parser accepts,
one comment line starting with '#' and one line that `parseHostPortType` rejects with an
error yields exactly one target, the one of the accepted line, and that target has
`Attempts = 1`, `Failures = 0` and `IsAlive = true` before the first probe cycle. -/
theorem load_one_valid_one_comment_one_rejected (env : Env) (clock : Nat → Time)
    (valid comment rejected : List Char) (lines : List (List Char))
    (hvalid : HasPrefix valid ['#'] = false ∧ (parseHostPortType env valid).2.2 = none)
    (hcomment : HasPrefix comment ['#'] = true)
    (hrejected : (parseHostPortType env rejected).2.2 ≠ none)
    (hlines : lines.Perm [valid, comment, rejected]) :
    ∃ t, getTargetsFromFile env clock lines = [t] ∧
      t.Attempts = 1 ∧ t.Failures = 0 ∧ t.IsAlive = true ∧
      t.Name = String.mk valid ∧ t.Host = String.mk (parseHostPortType env valid).1 ∧
      t.Port = (parseHostPortType env valid).2.1 := by
  have hsum := getTargetsFromLines_summary env clock lines 0
  have hfilter : lines.filter (lineAccepted env) = [valid] := by
    have hp := hlines.filter (lineAccepted env)
    have hv : lineAccepted env valid = true := by simp [lineAccepted, hvalid.1, hvalid.2]
    have hc : lineAccepted env comment = false := by simp [lineAccepted, hcomment]
    have hr : lineAccepted env rejected = false := by
      cases h : (parseHostPortType env rejected).2.2 with
      | none => exact absurd h hrejected
      | some e => simp [lineAccepted, h]
    rw [List.filter_cons_of_pos hv, List.filter_cons_of_neg (by simp [hc]),
      List.filter_cons_of_neg (by simp [hr]), List.filter_nil] at hp
    exact List.perm_singleton.1 hp
  rw [hfilter] at hsum
  unfold getTargetsFromFile
  cases hres : getTargetsFromLines env clock 0 lines with
  | nil => rw [hres] at hsum; simp at hsum
  | cons t ts =>
    rw [hres] at hsum
    cases ts with
    | cons t2 ts2 => simp at hsum
    | nil =>
      simp only [List.map_cons, List.map_nil, List.cons.injEq, Prod.mk.injEq, and_true] at hsum
      obtain ⟨h1, h2, h3, h4, h5, h6⟩ := hsum
      exact ⟨t, rfl, h4, h5, h6, h1, h2, h3⟩

/-- Witness of C5 (amended): the file "# targets", "8.8.8.8:53", "no such host". -/
theorem load_one_valid_one_comment_one_rejected_witness :
    ∃ t, getTargetsFromFile sampleEnv (fun i => i)
        ["# targets".toList, "8.8.8.8:53".toList, "no such host".toList] = [t] ∧
      t.Attempts = 1 ∧ t.Failures = 0 ∧ t.IsAlive = true ∧
      t.Name = String.mk "8.8.8.8:53".toList ∧
      t.Host = String.mk (parseHostPortType sampleEnv "8.8.8.8:53".toList).1 ∧
      t.Port = (parseHostPortType sampleEnv "8.8.8.8:53".toList).2.1 :=
  load_one_valid_one_comment_one_rejected sampleEnv (fun i => i)
    "8.8.8.8:53".toList "# targets".toList "no such host".toList
    ["# targets".toList, "8.8.8.8:53".toList, "no such host".toList]
    (by decide) (by decide) (by decide)
    (List.Perm.swap _ _ _)

/-- C5 as stated fails: the file "8.8.8.8:53", "# comment", "no such host" loads exactly
one target, and its `Attempts` is 1, not 0. -/
theorem load_attempts_counterexample :
    (getTargetsFromFile sampleEnv (fun i => i)
        ["8.8.8.8:53".toList, "# comment".toList, "no such host".toList]).map
      (fun t => (t.Host, t.Port, t.Attempts, t.Failures)) = [("8.8.8.8", 53, 1, 0)] ∧
    ¬ (∀ t ∈ getTargetsFromFile sampleEnv (fun i => i)
        ["8.8.8.8:53".toList, "# comment".toList, "no such host".toList], t.Attempts = 0) := by
  refine ⟨by decide, ?_⟩
  intro h
  have := h _ (List.mem_singleton.2 rfl)
  revert this
  decide

/-- C6 (amended): on the line cut at its first comma, `parseHostPortType` separates host
and port at the first colon. The host it validates and returns is the text before the
first colon; a host that is neither an IP literal nor resolvable gives the resolver's
error; for an acceptable host the port is 80 when the line has no colon, and otherwise
the integer that `strconv.Atoi` reads from the text between the first colon and the next
one (or the end of the line) when that integer is in [1, 65535]; what follows a second
colon is not read. For a line with at most one colon this is the split at the last
colon. -/
theorem parse_splits_at_first_colon (env : Env) (line : List Char) :
    (parseHostPortType env line).1
      = (line.takeWhile (fun c => c != ',')).takeWhile (fun c => c != ':') ∧
    (∀ e, env.parseIP ((line.takeWhile (fun c => c != ',')).takeWhile (fun c => c != ':'))
          = false →
        env.lookupIP ((line.takeWhile (fun c => c != ',')).takeWhile (fun c => c != ':'))
          = some e →
        parseHostPortType env line
          = ((line.takeWhile (fun c => c != ',')).takeWhile (fun c => c != ':'), -1,
              some (LineError.lookup e))) ∧
    ((env.parseIP ((line.takeWhile (fun c => c != ',')).takeWhile (fun c => c != ':')) = true ∨
        env.lookupIP ((line.takeWhile (fun c => c != ',')).takeWhile (fun c => c != ':'))
          = none) →
      (':' ∉ line.takeWhile (fun c => c != ',') →
        parseHostPortType env line
          = ((line.takeWhile (fun c => c != ',')).takeWhile (fun c => c != ':'), 80, none)) ∧
      (':' ∈ line.takeWhile (fun c => c != ',') →
        ∀ p, Atoi ((((line.takeWhile (fun c => c != ',')).dropWhile (fun c => c != ':')).drop 1
            ).takeWhile (fun c => c != ':')) = (p, none) → 1 ≤ p → p ≤ 65535 →
          parseHostPortType env line
            = ((line.takeWhile (fun c => c != ',')).takeWhile (fun c => c != ':'), p, none))) ∧
    ((line.takeWhile (fun c => c != ',')).count ':' ≤ 1 →
      splitLastColon (line.takeWhile (fun c => c != ','))
        = ((line.takeWhile (fun c => c != ',')).takeWhile (fun c => c != ':'),
           if ':' ∈ line.takeWhile (fun c => c != ',') then
             some ((((line.takeWhile (fun c => c != ',')).dropWhile (fun c => c != ':')).drop 1
               ).takeWhile (fun c => c != ':'))
           else none)) := by
  refine ⟨?_, ?_, ?_, splitLastColon_of_count_le_one _⟩
  · rw [parseHostPortType_eq]
    simp only []
    split
    · rfl
    · split
      · split <;> rfl
      · rfl
  · intro e h1 h2
    rw [parseHostPortType_eq]
    simp [h1, h2]
  · intro hacc
    have hnone : (if env.parseIP
          ((line.takeWhile (fun c => c != ',')).takeWhile (fun c => c != ':')) = true
        then none
        else env.lookupIP ((line.takeWhile (fun c => c != ',')).takeWhile (fun c => c != ':')))
        = none := by
      rcases hacc with h | h
      · simp [h]
      · simp [h]
    refine ⟨?_, ?_⟩
    · intro hno
      rw [parseHostPortType_eq]
      simp only [hnone, hno, if_false]
    · intro hin p hp h1 h2
      rw [parseHostPortType_eq]
      simp only [hnone, hin, if_true, hp, Option.isSome_none, Bool.false_or]
      rw [if_neg]
      simp only [Bool.or_eq_true, decide_eq_true_eq, not_or, not_le, not_lt, gt_iff_lt]
      omega

/-- Witness of C6 (amended): "example.com:8080,external" has one colon; host `example.com`
resolves and the port text "8080" is read as 8080. -/
theorem parse_splits_at_first_colon_witness :
    (sampleEnv.parseIP "example.com".toList = true ∨
      sampleEnv.lookupIP "example.com".toList = none) ∧
    ':' ∈ "example.com:8080,external".toList.takeWhile (fun c => c != ',') ∧
    ("example.com:8080,external".toList.takeWhile (fun c => c != ',')).count ':' ≤ 1 ∧
    parseHostPortType sampleEnv "example.com:8080,external".toList
      = ("example.com".toList, 8080, none) ∧
    splitLastColon "example.com:8080".toList = ("example.com".toList, some "8080".toList) :=
  have hacc : sampleEnv.parseIP "example.com".toList = true ∨
      sampleEnv.lookupIP "example.com".toList = none := Or.inr (by decide)
  have hin : ':' ∈ "example.com:8080,external".toList.takeWhile (fun c => c != ',') := by decide
  have hcount : ("example.com:8080,external".toList.takeWhile (fun c => c != ',')).count ':' ≤ 1 :=
    by decide
  ⟨hacc, hin, hcount,
    ((parse_splits_at_first_colon sampleEnv "example.com:8080,external".toList).2.2.1
      hacc).2 hin 8080 (by decide) (by decide) (by decide),
    (parse_splits_at_first_colon sampleEnv "example.com:8080,external".toList).2.2.2 hcount⟩

/-- C6 as stated fails: for "8.8.8.8:80:443" the text before the last colon is
"8.8.8.8:80" and the text after it is "443", but `parseHostPortType` returns host
"8.8.8.8" and port 80; for "::1:8080" the text before the last colon is the IP literal
"::1" and the port text "8080", but `parseHostPortType` looks up the empty host name and
returns the resolver's error. -/
theorem last_colon_counterexample :
    splitLastColon "8.8.8.8:80:443".toList = ("8.8.8.8:80".toList, some "443".toList) ∧
    parseHostPortType sampleEnv "8.8.8.8:80:443".toList = ("8.8.8.8".toList, 80, none) ∧
    (parseHostPortType sampleEnv "8.8.8.8:80:443".toList).1
      ≠ (splitLastColon "8.8.8.8:80:443".toList).1 ∧
    (parseHostPortType sampleEnv "8.8.8.8:80:443".toList).2.1 ≠ 443 ∧
    splitLastColon "::1:8080".toList = ("::1".toList, some "8080".toList) ∧
    sampleEnv.parseIP "::1".toList = true ∧
    (parseHostPortType sampleEnv "::1:8080".toList).1 = [] ∧
    (parseHostPortType sampleEnv "::1:8080".toList).2.2 ≠ none := by
  decide

/-! ## Network helpers -/

/-- C7: for IPv4 addresses `a.b.c.d` (base) and `x.y.z.w` (check), each in its 4-byte or
its 16-byte form, and a 4-byte mask `m1.m2.m3.m4`, `IsInSameSubnet` returns true exactly
when base AND mask equals check AND mask octet by octet. With base 192.168.1.1 and the
/24 mask it returns true for 192.168.1.200 and 192.168.1.2 and false for 10.0.0.1. -/
theorem same_subnet_iff_masked_octets_equal (a b c d x y z w m1 m2 m3 m4 : Nat) :
    (IsInSameSubnet [a, b, c, d] [m1, m2, m3, m4] [x, y, z, w] = true ↔
      (a &&& m1 = x &&& m1 ∧ b &&& m2 = y &&& m2 ∧ c &&& m3 = z &&& m3 ∧ d &&& m4 = w &&& m4)) ∧
    (IsInSameSubnet (IPv4 a b c d) [m1, m2, m3, m4] (IPv4 x y z w) = true ↔
      (a &&& m1 = x &&& m1 ∧ b &&& m2 = y &&& m2 ∧ c &&& m3 = z &&& m3 ∧ d &&& m4 = w &&& m4)) ∧
    (IsInSameSubnet [a, b, c, d] [m1, m2, m3, m4] (IPv4 x y z w) = true ↔
      (a &&& m1 = x &&& m1 ∧ b &&& m2 = y &&& m2 ∧ c &&& m3 = z &&& m3 ∧ d &&& m4 = w &&& m4)) ∧
    (IsInSameSubnet (IPv4 a b c d) [m1, m2, m3, m4] [x, y, z, w] = true ↔
      (a &&& m1 = x &&& m1 ∧ b &&& m2 = y &&& m2 ∧ c &&& m3 = z &&& m3 ∧ d &&& m4 = w &&& m4)) ∧
    CIDRMask 24 32 = [255, 255, 255, 0] ∧
    IsInSameSubnet (IPv4 192 168 1 1) (CIDRMask 24 32) (IPv4 192 168 1 200) = true ∧
    IsInSameSubnet (IPv4 192 168 1 1) (CIDRMask 24 32) (IPv4 192 168 1 2) = true ∧
    IsInSameSubnet (IPv4 192 168 1 1) (CIDRMask 24 32) (IPv4 10 0 0 1) = false := by
  refine ⟨?_, ?_, ?_, ?_, by decide, by decide, by decide, by decide⟩ <;>
    simp [IsInSameSubnet, Mask, Equal, IPv4, v4InV6Prefix, allFF, and_assoc]

theorem splitP_of_forall_not (p : Char → Bool) (l : List Char) (h : ∀ x ∈ l, p x = false) :
    splitP p l = [l] := by
  induction l with
  | nil => rfl
  | cons c cs ih =>
    have hc : p c = false := h c (List.mem_cons_self _ _)
    have hcs : ∀ x ∈ cs, p x = false := fun x hx => h x (List.mem_cons_of_mem _ hx)
    simp [splitP, hc, ih hcs]

theorem splitP_append_sep (p : Char → Bool) (l r : List Char) (c : Char)
    (h : ∀ x ∈ l, p x = false) (hc : p c = true) :
    splitP p (l ++ c :: r) = l :: splitP p r := by
  induction l with
  | nil => simp [splitP, hc]
  | cons a as ih =>
    have ha : p a = false := h a (List.mem_cons_self _ _)
    have has : ∀ x ∈ as, p x = false := fun x hx => h x (List.mem_cons_of_mem _ hx)
    simp [splitP, ha, ih has]

set_option maxRecDepth 100000 in
theorem formatByte_roundtrip :
    ∀ n, n < 256 →
      (Atoi (formatByte n) = ((n : Int), none) ∧
        (formatByte n).all (fun x => !(x == '.')) = true) := by
  decide

theorem formatByte_no_dot (n : Nat) (h : n < 256) :
    ∀ x ∈ formatByte n, (fun c : Char => c == '.') x = false := by
  intro x hx
  have := List.all_eq_true.1 (formatByte_roundtrip n h).2 x hx
  simpa using this

/-- C8: for a mask of four bytes `a`, `b`, `c`, `d`, `IPMaskToString` returns the decimal
texts of the four bytes, in order, joined by dots; the /24 mask formats to
"255.255.255.0"; and splitting the result on '.' and reading each part with
`strconv.Atoi` gives back `a`, `b`, `c`, `d` without error. -/
theorem mask_to_string_dotted_decimal (a b c d : Nat) :
    IPMaskToString [a, b, c, d]
      = Nat.toDigits 10 a ++ '.' :: (Nat.toDigits 10 b ++ '.' ::
          (Nat.toDigits 10 c ++ '.' :: Nat.toDigits 10 d)) ∧
    IPMaskToString (CIDRMask 24 32) = "255.255.255.0".toList ∧
    (a < 256 → b < 256 → c < 256 → d < 256 →
      (Split (IPMaskToString [a, b, c, d]) '.').map Atoi
        = [((a : Int), none), ((b : Int), none), ((c : Int), none), ((d : Int), none)]) := by
  refine ⟨by simp [IPMaskToString, Join, formatByte], by decide, ?_⟩
  intro ha hb hc hd
  have hsplit : Split (IPMaskToString [a, b, c, d]) '.'
      = [formatByte a, formatByte b, formatByte c, formatByte d] := by
    simp only [IPMaskToString, Join, List.map, Split]
    rw [splitP_append_sep _ _ _ _ (formatByte_no_dot a ha) (by simp),
      splitP_append_sep _ _ _ _ (formatByte_no_dot b hb) (by simp),
      splitP_append_sep _ _ _ _ (formatByte_no_dot c hc) (by simp),
      splitP_of_forall_not _ _ (formatByte_no_dot d hd)]
  rw [hsplit]
  simp [(formatByte_roundtrip a ha).1, (formatByte_roundtrip b hb).1,
    (formatByte_roundtrip c hc).1, (formatByte_roundtrip d hd).1]

/-- Witness of C8: the mask 255.255.240.0. -/
theorem mask_to_string_dotted_decimal_witness :
    (255 < 256 ∧ 240 < 256 ∧ 0 < 256) ∧
    IPMaskToString [255, 255, 240, 0] = "255.255.240.0".toList ∧
    (Split (IPMaskToString [255, 255, 240, 0]) '.').map Atoi
      = [(255, none), (255, none), (240, none), (0, none)] :=
  ⟨by decide,
    (mask_to_string_dotted_decimal 255 255 240 0).1.trans (by decide),
    (mask_to_string_dotted_decimal 255 255 240 0).2.2
      (by decide) (by decide) (by decide) (by decide)⟩

/-- C10 (the code at the failing input): on the `route -n` output quoted in the source,
whose default-route line names the gateway 192.168.0.254, `getLinuxGateway` returns, with
no error, the 13 bytes of the text "192.168.0.254" (49, 57, 50, 46, ...) as the `net.IP`:
a slice that is neither the 4-byte nor the 16-byte form of 192.168.0.254 and that
`net.IP.Equal` does not hold equal to it. -/
theorem linux_gateway_is_text_bytes :
    getLinuxGateway (Except.ok sampleRouteOutput)
      = ([49, 57, 50, 46, 49, 54, 56, 46, 48, 46, 50, 53, 52], none) ∧
    (getLinuxGateway (Except.ok sampleRouteOutput)).1 = bytesOfString "192.168.0.254".toList ∧
    (getLinuxGateway (Except.ok sampleRouteOutput)).1.length = 13 ∧
    (getLinuxGateway (Except.ok sampleRouteOutput)).1 ≠ [192, 168, 0, 254] ∧
    (getLinuxGateway (Except.ok sampleRouteOutput)).1 ≠ IPv4 192 168 0 254 ∧
    Equal (getLinuxGateway (Except.ok sampleRouteOutput)).1 (IPv4 192 168 0 254) = false ∧
    Equal (getLinuxGateway (Except.ok sampleRouteOutput)).1 [192, 168, 0, 254] = false := by
  decide

/-! ## The status line -/

theorem F32.ofRat_ne_nan (q : ℚ) : F32.ofRat q ≠ F32.nan := by
  unfold F32.ofRat
  split
  · simp
  · simp only []
    split <;> simp

theorem F32.ofInt_zero : F32.ofInt 0 = F32.fin 0 := by
  simp [F32.ofInt, F32.ofRat]

theorem F32.div_zero_not_fin (x : F32) :
    F32.div x (F32.fin 0) = F32.nan ∨ ∃ s, F32.div x (F32.fin 0) = F32.inf s := by
  cases x with
  | nan => left; rfl
  | inf s => right; exact ⟨_, rfl⟩
  | fin a =>
    by_cases ha : a = 0
    · left; simp [F32.div, ha]
    · right; exact ⟨decide (a < 0), by simp [F32.div, ha]⟩

theorem F32.mul_not_fin (x y : F32) (hy : y ≠ F32.nan)
    (hx : x = F32.nan ∨ ∃ s, x = F32.inf s) :
    F32.mul x y = F32.nan ∨ ∃ s, F32.mul x y = F32.inf s := by
  rcases hx with rfl | ⟨s, rfl⟩
  · left; cases y <;> rfl
  · cases y with
    | nan => exact absurd rfl hy
    | inf s' => right; exact ⟨_, rfl⟩
    | fin b =>
      by_cases hb : b = 0
      · left; simp [F32.mul, hb]
      · right; exact ⟨xor s (decide (b < 0)), by simp [F32.mul, hb]⟩

theorem successRate_of_zero_attempts (t : Target) (h : t.Attempts = 0) :
    successRate t = F32.nan ∨ ∃ s, successRate t = F32.inf s := by
  unfold successRate
  rw [h, F32.ofInt_zero]
  exact F32.mul_not_fin _ _ (F32.ofRat_ne_nan 100) (F32.div_zero_not_fin _)

theorem successRate_of_zero_counters (t : Target) (h : t.Attempts = 0) (hf : t.Failures = 0) :
    successRate t = F32.nan := by
  unfold successRate
  rw [h, hf, F32.ofInt_zero]
  have hw : wrapInt (0 - 0) = 0 := by decide
  rw [hw, F32.ofInt_zero]
  have hd : F32.div (F32.fin 0) (F32.fin 0) = F32.nan := by simp [F32.div]
  rw [hd]
  cases F32.ofRat 100 <;> rfl

theorem two_pow_log2Fuel_le (fuel : Nat) : ∀ n : Nat, 1 ≤ n → 2 ^ log2Fuel fuel n ≤ n := by
  induction fuel with
  | zero => intro n hn; simpa [log2Fuel] using hn
  | succ fuel ih =>
    intro n hn
    unfold log2Fuel
    split
    · rename_i h2
      have h1 : 1 ≤ n / 2 := by omega
      have := ih (n / 2) h1
      rw [pow_succ]
      omega
    · simpa using hn

theorem floorLog2_le (m : ℚ) :
    floorLog2 m ≤ (log2Fuel m.num.natAbs m.num.natAbs : Int) - (log2Fuel m.den m.den : Int) := by
  unfold floorLog2
  simp only []
  split <;> omega

theorem roundHalfEven_pos (k : ℚ) (hk : 1 ≤ k) : 1 ≤ roundHalfEven k := by
  have hf : (1 : Int) ≤ k.floor := Rat.le_floor.2 (by simpa using hk)
  unfold roundHalfEven
  simp only []
  split
  · exact hf
  · split
    · omega
    · split <;> omega

theorem ulp_le_abs_intCast (n : Int) (hn : n ≠ 0) :
    (2 : ℚ) ^ (max (floorLog2 |(n : ℚ)|) (-126) - 23) ≤ |(n : ℚ)| := by
  have habs : |(n : ℚ)| = ((n.natAbs : Int) : ℚ) := by
    rw [← Int.cast_abs, Int.abs_eq_natAbs]
  have hpos : 1 ≤ n.natAbs := Nat.one_le_iff_ne_zero.2 (Int.natAbs_ne_zero.2 hn)
  have hle := floorLog2_le |(n : ℚ)|
  rw [habs] at hle ⊢
  simp only [Rat.num_intCast, Rat.den_intCast, Int.natAbs_ofNat] at hle
  have hden : log2Fuel 1 1 = 0 := rfl
  rw [hden] at hle
  have hL := two_pow_log2Fuel_le n.natAbs n.natAbs hpos
  have he : max (floorLog2 ((n.natAbs : Int) : ℚ)) (-126) - 23
      ≤ ((log2Fuel n.natAbs n.natAbs : Nat) : Int) := by
    have : max (floorLog2 ((n.natAbs : Int) : ℚ)) (-126)
        ≤ ((log2Fuel n.natAbs n.natAbs : Nat) : Int) := by
      apply max_le
      · simpa using hle
      · omega
    omega
  calc (2 : ℚ) ^ (max (floorLog2 ((n.natAbs : Int) : ℚ)) (-126) - 23)
      ≤ (2 : ℚ) ^ (((log2Fuel n.natAbs n.natAbs : Nat) : Int)) :=
        zpow_le_zpow_right₀ (by norm_num) he
    _ = ((2 ^ log2Fuel n.natAbs n.natAbs : Nat) : ℚ) := by
        rw [zpow_natCast]; push_cast; rfl
    _ ≤ ((n.natAbs : Nat) : ℚ) := by exact_mod_cast hL
    _ = ((n.natAbs : Int) : ℚ) := (Int.cast_natCast _).symm

theorem F32.ofRat_intCast_ne_zero (n : Int) (hn : n ≠ 0) :
    (∃ s, F32.ofRat (n : ℚ) = F32.inf s) ∨ (∃ r, F32.ofRat (n : ℚ) = F32.fin r ∧ r ≠ 0) := by
  have hq : (n : ℚ) ≠ 0 := by exact_mod_cast hn
  have hulp : (0 : ℚ) < (2 : ℚ) ^ (max (floorLog2 |(n : ℚ)|) (-126) - 23) :=
    zpow_pos (by norm_num) _
  have hk : 1 ≤ |(n : ℚ)| / (2 : ℚ) ^ (max (floorLog2 |(n : ℚ)|) (-126) - 23) := by
    rw [le_div_iff₀ hulp, one_mul]
    exact ulp_le_abs_intCast n hn
  have hround := roundHalfEven_pos _ hk
  have hr : (0 : ℚ) < (roundHalfEven (|(n : ℚ)| / (2 : ℚ) ^ (max (floorLog2 |(n : ℚ)|) (-126) - 23)) : ℚ)
      * (2 : ℚ) ^ (max (floorLog2 |(n : ℚ)|) (-126) - 23) := by
    apply mul_pos _ hulp
    exact Int.cast_pos.2 (lt_of_lt_of_le zero_lt_one hround)
  unfold F32.ofRat
  rw [if_neg hq]
  simp only []
  split
  · exact Or.inl ⟨_, rfl⟩
  · refine Or.inr ⟨_, rfl, ?_⟩
    split
    · exact neg_ne_zero.2 (ne_of_gt hr)
    · exact ne_of_gt hr

theorem successRate_of_zero_attempts_nonzero_failures (t : Target) (h : t.Attempts = 0)
    (hmin : minInt ≤ t.Failures) (hmax : t.Failures ≤ maxInt) (hf : t.Failures ≠ 0) :
    ∃ s, successRate t = F32.inf s := by
  have hw : wrapInt (0 - t.Failures) ≠ 0 := by
    unfold wrapInt
    unfold minInt at hmin
    unfold maxInt at hmax
    omega
  have hdiv : ∃ s, F32.div (F32.ofInt (wrapInt (0 - t.Failures))) (F32.fin 0) = F32.inf s := by
    unfold F32.ofInt
    rcases F32.ofRat_intCast_ne_zero _ hw with ⟨s, hs⟩ | ⟨r, hr, hr0⟩
    · rw [hs]; exact ⟨_, rfl⟩
    · rw [hr]; exact ⟨decide (r < 0), by simp [F32.div, hr0]⟩
  obtain ⟨s, hs⟩ := hdiv
  unfold successRate
  rw [h, F32.ofInt_zero, hs]
  have h100 : (100 : ℚ) = ((100 : Int) : ℚ) := by norm_num
  rw [h100]
  rcases F32.ofRat_intCast_ne_zero 100 (by decide) with ⟨s', hs'⟩ | ⟨r, hr, hr0⟩
  · rw [hs']; exact ⟨_, rfl⟩
  · rw [hr]; exact ⟨xor s (decide (r < 0)), by simp [F32.mul, hr0]⟩

/-- C9 (amended): `Target.String` applies no guard. For a target with `Attempts = 0` it
still evaluates `float32(Attempts-Failures)/float32(Attempts)*100.0` with a zero divisor:
the success rate it formats is NaN when `Failures = 0` too, an infinity for every other
Go `int` value of `Failures`, and so in every case NaN or an infinity, never a finite
number. -/
theorem success_rate_with_zero_attempts (t : Target) (h : t.Attempts = 0) :
    (t.Failures = 0 → successRate t = F32.nan) ∧
    (minInt ≤ t.Failures → t.Failures ≤ maxInt → t.Failures ≠ 0 →
      ∃ s, successRate t = F32.inf s) ∧
    (successRate t = F32.nan ∨ ∃ s, successRate t = F32.inf s) ∧
    (∀ q, successRate t ≠ F32.fin q) := by
  refine ⟨successRate_of_zero_counters t h,
    successRate_of_zero_attempts_nonzero_failures t h, successRate_of_zero_attempts t h, ?_⟩
  intro q hq
  rcases successRate_of_zero_attempts t h with h1 | ⟨s, h1⟩ <;> rw [h1] at hq <;> cases hq

/-- Witness of C9 (amended): the first default target, never probed, and a target with no
attempt and two failures recorded. -/
theorem success_rate_with_zero_attempts_witness :
    (((defaultTargets 0).headD saturatedTarget).Attempts = 0 ∧
      ((defaultTargets 0).headD saturatedTarget).Failures = 0 ∧
      successRate ((defaultTargets 0).headD saturatedTarget) = F32.nan) ∧
    (({ saturatedTarget with Attempts := 0, Failures := 2 } : Target).Attempts = 0 ∧
      minInt ≤ ({ saturatedTarget with Attempts := 0, Failures := 2 } : Target).Failures ∧
      ({ saturatedTarget with Attempts := 0, Failures := 2 } : Target).Failures ≤ maxInt ∧
      ({ saturatedTarget with Attempts := 0, Failures := 2 } : Target).Failures ≠ 0 ∧
      ∃ s, successRate { saturatedTarget with Attempts := 0, Failures := 2 } = F32.inf s) :=
  ⟨⟨rfl, rfl,
      (success_rate_with_zero_attempts ((defaultTargets 0).headD saturatedTarget) rfl).1 rfl⟩,
    ⟨rfl, by decide, by decide, by decide,
      (success_rate_with_zero_attempts { saturatedTarget with Attempts := 0, Failures := 2 }
        rfl).2.1 (by decide) (by decide) (by decide)⟩⟩

/-- C9 as stated fails: both default targets have `Attempts = 0`, and the success rate
that `Target.String` computes for them is NaN. -/
theorem success_rate_counterexample :
    (defaultTargets 0).map (fun t => t.Attempts) = [0, 0] ∧
    (defaultTargets 0).map successRate = [F32.nan, F32.nan] := by
  refine ⟨rfl, ?_⟩
  simp only [defaultTargets, List.map_cons, List.map_nil]
  rw [successRate_of_zero_counters _ rfl rfl, successRate_of_zero_counters _ rfl rfl]

end Uptime
